import Mathlib

/-!
Verification development for the article-ingestion pipeline
(scraper → dedup → embedding → Q&A transform → insert → classification).

The JavaScript sources are shallowly embedded as pure Lean functions.
External providers (the Ollama chat/embedding endpoints, the JavaScript
date parser `new Date(...)`) are passed in as oracle functions; everything
the repository itself computes is translated directly from the source.
-/

/-- JSON values, as produced by the JavaScript builtin `JSON.parse`.
Numbers keep their literal text: no claim performs numeric arithmetic,
so float semantics never have to be modelled. -/
inductive JVal where
  | jnull : JVal
  | jbool : Bool → JVal
  | jstr : String → JVal
  | jnum : String → JVal
  | jarr : List JVal → JVal
  | jobj : List (String × JVal) → JVal

/-- JSON whitespace characters (RFC 8259: space, tab, line feed, carriage return). -/
def jsonWsChar (c : Char) : Bool :=
  c == ' ' || c == '\t' || c == '\n' || c == '\r'

/-- Drop leading JSON whitespace. -/
def skipWs (cs : List Char) : List Char :=
  cs.dropWhile jsonWsChar

/-- Does `pat` occur as a prefix of `cs`? -/
def prefixMatches : List Char → List Char → Bool
  | [], _ => true
  | _ :: _, [] => false
  | p :: ps, c :: cs => p == c && prefixMatches ps cs

/-- Model of `String.prototype.includes`. -/
def containsPat (pat : List Char) : List Char → Bool
  | [] => pat.isEmpty
  | c :: cs => prefixMatches pat (c :: cs) || containsPat pat cs

/-- Remove whitespace from both ends (JavaScript `trim`). -/
def trimChars (cs : List Char) : List Char :=
  ((cs.dropWhile Char.isWhitespace).reverse.dropWhile Char.isWhitespace).reverse

/-- JavaScript `String.prototype.trim`, over the character list. -/
def strTrim (s : String) : String :=
  String.mk (trimChars s.toList)

/-- First `n` characters (JavaScript `substring(0, n)`). -/
def strTake (s : String) (n : Nat) : String :=
  String.mk (s.toList.take n)

/-- String length as a character count. -/
def strLen (s : String) : Nat :=
  s.toList.length

/-- Worker for `splitOnChars`; the fuel is an upper bound on the input
length and never runs out at the supplied value. -/
def splitOnGo (sep : List Char) : Nat → List Char → List Char → List (List Char)
  | _, cur, [] => [cur.reverse]
  | 0, cur, rest => [cur.reverse ++ rest]
  | fuel + 1, cur, c :: cs =>
    if prefixMatches sep (c :: cs) then
      cur.reverse :: splitOnGo sep fuel [] ((c :: cs).drop sep.length)
    else
      splitOnGo sep fuel (c :: cur) cs

/-- JavaScript `String.prototype.split` with a non-empty string separator. -/
def splitOnChars (sep cs : List Char) : List (List Char) :=
  if sep.isEmpty then [cs] else splitOnGo sep (cs.length + 1) [] cs

/-- JavaScript `String.prototype.replace` with a string pattern: replace
the first occurrence only. -/
def replaceFirstChars (pat rep : List Char) : List Char → List Char
  | [] => []
  | c :: cs =>
    if prefixMatches pat (c :: cs) then rep ++ (c :: cs).drop pat.length
    else c :: replaceFirstChars pat rep cs

/-- JavaScript `String.prototype.replace` with a string pattern, on strings. -/
def strReplaceFirst (s pat rep : String) : String :=
  String.mk (replaceFirstChars pat.toList rep.toList s.toList)

/-- Worker for `strReplaceAll` (fuel as for `splitOnGo`). -/
def replaceAllChars (pat rep : List Char) : Nat → List Char → List Char
  | _, [] => []
  | 0, cs => cs
  | fuel + 1, c :: cs =>
    if prefixMatches pat (c :: cs) then
      rep ++ replaceAllChars pat rep fuel ((c :: cs).drop pat.length)
    else c :: replaceAllChars pat rep fuel cs

/-- JavaScript `String.prototype.replace` with a `/g` regex whose pattern
is a literal string: replace every occurrence. -/
def strReplaceAll (s pat rep : String) : String :=
  String.mk (replaceAllChars pat.toList rep.toList (s.toList.length + 1) s.toList)

example : strTrim "  a b " = "a b" := by rfl
example : splitOnChars "/".toList "a//b".toList = ["a".toList, [], "b".toList] := by rfl
example : strReplaceFirst "x{t}y{t}" "{t}" "A" = "xAy{t}" := by rfl
example : strReplaceAll "x{t}y{t}" "{t}" "A" = "xAyA" := by rfl

/-- Value of a hexadecimal digit. -/
def hexDigitVal (c : Char) : Option Nat :=
  if c.isDigit then some (c.toNat - '0'.toNat)
  else if 'a' ≤ c ∧ c ≤ 'f' then some (c.toNat - 'a'.toNat + 10)
  else if 'A' ≤ c ∧ c ≤ 'F' then some (c.toNat - 'A'.toNat + 10)
  else none

/-- Parse the body of a JSON string literal (after the opening quote),
returning the decoded characters and the input remaining after the
closing quote.  Handles the JSON escape sequences; rejects unescaped
control characters, as `JSON.parse` does. -/
def parseStrChars : List Char → Option (List Char × List Char)
  | [] => none
  | '"' :: rest => some ([], rest)
  | '\\' :: rest =>
    match rest with
    | '"' :: r => (parseStrChars r).map (fun p => ('"' :: p.1, p.2))
    | '\\' :: r => (parseStrChars r).map (fun p => ('\\' :: p.1, p.2))
    | '/' :: r => (parseStrChars r).map (fun p => ('/' :: p.1, p.2))
    | 'b' :: r => (parseStrChars r).map (fun p => ('\x08' :: p.1, p.2))
    | 'f' :: r => (parseStrChars r).map (fun p => ('\x0c' :: p.1, p.2))
    | 'n' :: r => (parseStrChars r).map (fun p => ('\n' :: p.1, p.2))
    | 'r' :: r => (parseStrChars r).map (fun p => ('\r' :: p.1, p.2))
    | 't' :: r => (parseStrChars r).map (fun p => ('\t' :: p.1, p.2))
    | 'u' :: h1 :: h2 :: h3 :: h4 :: r =>
      match hexDigitVal h1, hexDigitVal h2, hexDigitVal h3, hexDigitVal h4 with
      | some a, some b, some c, some d =>
        (parseStrChars r).map (fun p => (Char.ofNat (a * 4096 + b * 256 + c * 16 + d) :: p.1, p.2))
      | _, _, _, _ => none
    | _ => none
  | c :: rest =>
    if c.toNat < 32 then none
    else (parseStrChars rest).map (fun p => (c :: p.1, p.2))

/-- Parse a JSON number literal (sign, integer part, optional fraction and
exponent), returning its text and the remaining input. -/
def parseNumberLit (cs : List Char) : Option (List Char × List Char) :=
  let signSplit : List Char × List Char :=
    match cs with
    | '-' :: r => (['-'], r)
    | _ => ([], cs)
  let intPart : Option (List Char × List Char) :=
    match signSplit.2 with
    | '0' :: r => some (['0'], r)
    | c :: r =>
      if c.isDigit then some (c :: r.takeWhile Char.isDigit, r.dropWhile Char.isDigit)
      else none
    | [] => none
  match intPart with
  | none => none
  | some (ip, r1) =>
    let fracSplit : List Char × List Char :=
      match r1 with
      | '.' :: r =>
        let ds := r.takeWhile Char.isDigit
        if ds.isEmpty then ([], r1) else ('.' :: ds, r.dropWhile Char.isDigit)
      | _ => ([], r1)
    let r2 := fracSplit.2
    let expSplit : List Char × List Char :=
      match r2 with
      | e :: rest2 =>
        if e = 'e' ∨ e = 'E' then
          match rest2 with
          | s :: rest3 =>
            if s = '+' ∨ s = '-' then
              let ds := rest3.takeWhile Char.isDigit
              if ds.isEmpty then ([], r2)
              else (e :: s :: ds, rest3.dropWhile Char.isDigit)
            else
              let ds := rest2.takeWhile Char.isDigit
              if ds.isEmpty then ([], r2)
              else (e :: ds, rest2.dropWhile Char.isDigit)
          | [] => ([], r2)
        else ([], r2)
      | [] => ([], r2)
    some (signSplit.1 ++ ip ++ fracSplit.1 ++ expSplit.1, expSplit.2)

mutual

/-- Parse one JSON value (fuel-bounded recursion; `jsonParse` supplies
enough fuel for any input). Returns the value and the remaining input. -/
def parseJVal (fuel : Nat) (cs : List Char) : Option (JVal × List Char) :=
  match fuel with
  | 0 => none
  | fuel + 1 =>
    match skipWs cs with
    | '\x7b' :: rest => parseObjFirst fuel rest
    | '[' :: rest => parseArrFirst fuel rest
    | '"' :: rest => (parseStrChars rest).map (fun p => (JVal.jstr (String.mk p.1), p.2))
    | 't' :: 'r' :: 'u' :: 'e' :: rest => some (JVal.jbool true, rest)
    | 'f' :: 'a' :: 'l' :: 's' :: 'e' :: rest => some (JVal.jbool false, rest)
    | 'n' :: 'u' :: 'l' :: 'l' :: rest => some (JVal.jnull, rest)
    | other => (parseNumberLit other).map (fun p => (JVal.jnum (String.mk p.1), p.2))

/-- Parse the inside of a JSON object after the opening brace. -/
def parseObjFirst (fuel : Nat) (cs : List Char) : Option (JVal × List Char) :=
  match fuel with
  | 0 => none
  | fuel + 1 =>
    match skipWs cs with
    | '\x7d' :: rest => some (JVal.jobj [], rest)
    | _ => (parseMember fuel cs).bind (fun p => parseObjRest fuel p.2 [p.1])

/-- Parse one `"key": value` member of a JSON object. -/
def parseMember (fuel : Nat) (cs : List Char) : Option ((String × JVal) × List Char) :=
  match fuel with
  | 0 => none
  | fuel + 1 =>
    match skipWs cs with
    | '"' :: rest =>
      (parseStrChars rest).bind (fun kp =>
        match skipWs kp.2 with
        | ':' :: r2 => (parseJVal fuel r2).map (fun vp => ((String.mk kp.1, vp.1), vp.2))
        | _ => none)
    | _ => none

/-- Parse the members of a JSON object after the first member. -/
def parseObjRest (fuel : Nat) (cs : List Char) (acc : List (String × JVal)) :
    Option (JVal × List Char) :=
  match fuel with
  | 0 => none
  | fuel + 1 =>
    match skipWs cs with
    | '\x7d' :: rest => some (JVal.jobj acc.reverse, rest)
    | ',' :: rest => (parseMember fuel rest).bind (fun p => parseObjRest fuel p.2 (p.1 :: acc))
    | _ => none

/-- Parse the inside of a JSON array after the opening bracket. -/
def parseArrFirst (fuel : Nat) (cs : List Char) : Option (JVal × List Char) :=
  match fuel with
  | 0 => none
  | fuel + 1 =>
    match skipWs cs with
    | ']' :: rest => some (JVal.jarr [], rest)
    | _ => (parseJVal fuel cs).bind (fun p => parseArrRest fuel p.2 [p.1])

/-- Parse the elements of a JSON array after the first element. -/
def parseArrRest (fuel : Nat) (cs : List Char) (acc : List JVal) :
    Option (JVal × List Char) :=
  match fuel with
  | 0 => none
  | fuel + 1 =>
    match skipWs cs with
    | ']' :: rest => some (JVal.jarr acc.reverse, rest)
    | ',' :: rest => (parseJVal fuel rest).bind (fun p => parseArrRest fuel p.2 (p.1 :: acc))
    | _ => none

end

/-- Model of the JavaScript builtin `JSON.parse`: parse one value and
require that only whitespace follows; otherwise fail. -/
def jsonParse (s : String) : Option JVal :=
  match parseJVal (s.length * 2 + 2) s.toList with
  | some (v, rest) => if (skipWs rest).isEmpty then some v else none
  | none => none

example : jsonParse "\x7b\"a\":1\x7d" = some (JVal.jobj [("a", JVal.jnum "1")]) := by rfl
example : jsonParse " true " = some (JVal.jbool true) := by rfl
example : jsonParse "\x7b\"a\":1\x7d x" = none := by rfl
example : jsonParse "\x7b\"is_interesting\":true\x7d" =
    some (JVal.jobj [("is_interesting", JVal.jbool true)]) := by rfl
example : jsonParse "[1, \"two\", null, \x7b\x7d]" =
    some (JVal.jarr [JVal.jnum "1", JVal.jstr "two", JVal.jnull, JVal.jobj []]) := by rfl
example : jsonParse "\x7b\"a\":-1.5e2\x7d" = some (JVal.jobj [("a", JVal.jnum "-1.5e2")]) := by rfl
example : jsonParse "01" = none := by rfl
example : jsonParse "" = none := by rfl

/-!
### Brace-span extraction

`classifier.js` falls back to `content.match(/\x7b[\s\S]*\x7d/)` when the
direct `JSON.parse` fails.  That regular expression matches from the first
opening brace to the LAST closing brace (the quantifier is greedy), so the
match decomposes the text as `pre ++ mid ++ post` where `pre` contains no
opening brace and `post` no closing brace.
-/

/-- Decompose a character list around the regex match of
`/\x7b[\s\S]*\x7d/`: `pre` (before the first opening brace), `mid` (from
the first opening brace to the last closing brace, inclusive) and `post`
(after the last closing brace).  `none` when the regex does not match. -/
def braceSpan (cs : List Char) : Option (List Char × List Char × List Char) :=
  match cs.dropWhile (fun c => c != '\x7b') with
  | [] => none
  | r0 :: rtail =>
    match (r0 :: rtail).reverse.dropWhile (fun c => c != '\x7d') with
    | [] => none
    | m0 :: mtail =>
      some (cs.takeWhile (fun c => c != '\x7b'), (m0 :: mtail).reverse,
        ((r0 :: rtail).reverse.takeWhile (fun c => c != '\x7d')).reverse)

/-- Model of `content.match(/\x7b[\s\S]*\x7d/)` from `classifier.js`:
the substring from the first opening brace to the last closing brace. -/
def firstToLastBraceMatch (s : String) : Option String :=
  (braceSpan s.toList).map (fun t => String.mk t.2.1)

/-- Definition following the words of the spec, for comparison with the
code: the first brace-delimited substring of the text that parses as JSON
(earliest start position; for equal starts, the shortest). -/
def firstBraceDelimitedJsonObject (s : String) : Option String :=
  let cs := s.toList
  let n := cs.length
  (List.range n).findSome? (fun i =>
    if cs[i]? == some '\x7b' then
      (List.range n).findSome? (fun j =>
        if i < j ∧ cs[j]? == some '\x7d' then
          let sub := (cs.drop i).take (j + 1 - i)
          if (jsonParse (String.mk sub)).isSome then some (String.mk sub) else none
        else none)
    else none)

example : firstToLastBraceMatch "a\x7bb\x7dc" = some "\x7bb\x7d" := by rfl
example : firstToLastBraceMatch "abc" = none := by rfl
example : firstToLastBraceMatch "\x7d a \x7b" = none := by rfl
example : firstToLastBraceMatch "x\x7b1\x7dy\x7b2\x7dz" = some "\x7b1\x7dy\x7b2\x7d" := by rfl
example : firstBraceDelimitedJsonObject "x\x7b\"a\":1\x7dy\x7b\"b\":2\x7dz" =
    some "\x7b\"a\":1\x7d" := by rfl

/-!
### Classification stage (`src/services/classifier.js`)
-/

/-- An article as passed to the classifier: title, content, url. -/
structure Article where
  title : String
  content : String
  url : String

/-- The value returned by `classifyArticle`.  `is_interesting` is the
tri-state label: `some true` / `some false` / `none` (null). The other
fields hold JSON values or null. -/
structure ClassificationResult where
  is_interesting : Option Bool
  reasoning : Option JVal
  content_pillar : Option JVal
  policy_anchor : Option JVal

/-- Lookup by key in an association list (first match). -/
def lookupKey : List (String × JVal) → String → Option JVal
  | [], _ => none
  | kv :: rest, k => if kv.1 = k then some kv.2 else lookupKey rest k

/-- Property access on an object built by the JavaScript `JSON.parse`:
for duplicate keys the LAST binding wins. -/
def jsGet (fields : List (String × JVal)) (k : String) : Option JVal :=
  lookupKey fields.reverse k

/-- Is a JSON numeric literal the number zero (`0`, `-0`, `0.0`, `0e5`, ...)? -/
def isZeroNumericLiteral (lit : String) : Bool :=
  let cs := lit.toList
  let cs := if cs.head? == some '-' then cs.tail else cs
  let mant := cs.takeWhile (fun c => c != 'e' && c != 'E')
  (mant.filter (fun c => c != '.')).all (fun c => c == '0')

/-- JavaScript truthiness of a JSON value. -/
def jsTruthy : JVal → Bool
  | JVal.jnull => false
  | JVal.jbool b => b
  | JVal.jstr s => s != ""
  | JVal.jnum lit => !(isZeroNumericLiteral lit)
  | JVal.jarr _ => true
  | JVal.jobj _ => true

/-- Model of the JavaScript expression `x || null`: the value when truthy, null otherwise. -/
def orNull (v : Option JVal) : Option JVal :=
  match v with
  | some x => if jsTruthy x then some x else none
  | none => none

/-- Property access `payload.is_interesting` on an arbitrary parsed JSON
value: a field of an object, `undefined` (none) on every non-object. -/
def payloadGet (payload : JVal) (k : String) : Option JVal :=
  match payload with
  | JVal.jobj fields => jsGet fields k
  | _ => none

/-- The boolean coercion from `classifier.js`:
`classificationResult.is_interesting === true || classificationResult.is_interesting === 'true'`. -/
def coerceInteresting : Option JVal → Bool
  | some (JVal.jbool true) => true
  | some (JVal.jstr s) => s == "true"
  | _ => false

/-- The result object returned by `classifyArticle` on the success path.
Property access on parsed `null` throws in JavaScript (caught by the outer
handler), hence the error case. -/
def resultFromPayload (payload : JVal) : Except String ClassificationResult :=
  match payload with
  | JVal.jnull => Except.error "Cannot read properties of null"
  | _ =>
    Except.ok
      { is_interesting := some (coerceInteresting (payloadGet payload "is_interesting")),
        reasoning := orNull (payloadGet payload "reasoning"),
        content_pillar := orNull (payloadGet payload "content_pillar"),
        policy_anchor := orNull (payloadGet payload "policy_anchor") }

/-- The object returned when any step of `classifyArticle` throws. -/
def classificationFailure (msg : String) : ClassificationResult :=
  { is_interesting := none,
    reasoning := some (JVal.jstr ("Classification failed: " ++ msg)),
    content_pillar := none,
    policy_anchor := none }

/-- The classification prompt template (`promptRefiner.js`).  The rubric
text is abbreviated: no claim depends on its wording, only on the
placeholder substitution below. -/
def CLASSIFICATION_PROMPT : String :=
  "You are an expert content classifier specializing in public policy " ++
  "and government-related news.\n\nTitle: {title}\n\nContent: {content}\n\nURL: {url}\n\n" ++
  "Now classify this article:"

/-- `formatClassificationPrompt` from `promptRefiner.js`: substitute the
article fields, defaulting empty title/url to `N/A` and truncating the
content to 3000 characters. -/
def formatClassificationPrompt (a : Article) : String :=
  strReplaceFirst
    (strReplaceFirst
      (strReplaceFirst CLASSIFICATION_PROMPT "{title}" (if a.title = "" then "N/A" else a.title))
      "{content}" (strTake a.content 3000))
    "{url}" (if a.url = "" then "N/A" else a.url)

/-- The response-parsing sequence of `classifyArticle`: direct
`JSON.parse`; on failure, `JSON.parse` of the greedy brace match; the
error messages are those of the two throw sites (the second standing for
the engine-specific SyntaxError text). -/
def parseClassifierContent (content : String) : Except String JVal :=
  match jsonParse content with
  | some v => Except.ok v
  | none =>
    match firstToLastBraceMatch content with
    | none => Except.error "Could not parse Ollama response as JSON"
    | some sub =>
      match jsonParse sub with
      | some v => Except.ok v
      | none => Except.error "Unexpected token in JSON"

/-- `classifyArticle` from `classifier.js`.  The Ollama chat call is the
oracle `chat`, applied to the formatted prompt; `Except.error` models a
thrown provider error, `Except.ok ""` a missing/empty response content.
Every thrown error is caught and turned into `classificationFailure`. -/
def classifyArticle (chat : String → Except String String) (a : Article) :
    ClassificationResult :=
  match chat (formatClassificationPrompt a) with
  | Except.error e => classificationFailure e
  | Except.ok content =>
    if content = "" then classificationFailure "No response content from Ollama"
    else
      match parseClassifierContent content with
      | Except.error m => classificationFailure m
      | Except.ok payload =>
        match resultFromPayload payload with
        | Except.error m => classificationFailure m
        | Except.ok r => r

example :
    (classifyArticle (fun _ => Except.ok "\x7b\"is_interesting\":true\x7d")
      ⟨"t", "c", "u"⟩).is_interesting = some true := by rfl
example :
    (classifyArticle (fun _ => Except.ok "junk \x7b\"is_interesting\":\"true\"\x7d")
      ⟨"t", "c", "u"⟩).is_interesting = some true := by rfl
example :
    (classifyArticle (fun _ => Except.error "boom") ⟨"t", "c", "u"⟩).is_interesting = none := by rfl
example :
    (classifyArticle (fun _ => Except.ok "not json at all") ⟨"t", "c", "u"⟩).reasoning =
      some (JVal.jstr "Classification failed: Could not parse Ollama response as JSON") := by rfl

/-!
### Date normalization (`src/utils/dateParser.js`, `parseMoneycontrolDate`)

`new Date(...)` is a JavaScript builtin; it is the oracle `dparse`
(`none` models an Invalid Date, i.e. `isNaN(parsed.getTime())`).
Timestamps are integers; `now` is the current time.
-/

/-- Case-insensitive character prefix test. -/
def lowerPrefixMatches : List Char → List Char → Bool
  | [], _ => true
  | _ :: _, [] => false
  | p :: ps, c :: cs => p == c.toLower && lowerPrefixMatches ps cs

/-- Match the regex `(Updated|Published)\s*:?/i` at the head of the list:
on success return the input with the matched part removed. -/
def matchNoiseLabelAt (cs : List Char) : Option (List Char) :=
  if lowerPrefixMatches "updated".toList cs then
    let rest := (cs.drop 7).dropWhile Char.isWhitespace
    some (match rest with | ':' :: r => r | r => r)
  else if lowerPrefixMatches "published".toList cs then
    let rest := (cs.drop 9).dropWhile Char.isWhitespace
    some (match rest with | ':' :: r => r | r => r)
  else none

/-- `dateString.replace(/(Updated|Published)\s*:?/i, '')` — remove the
leftmost occurrence of the label, its trailing whitespace and an optional
colon. -/
def stripFirstNoiseLabel : List Char → List Char
  | [] => []
  | c :: rest =>
    match matchNoiseLabelAt (c :: rest) with
    | some remaining => remaining
    | none => c :: stripFirstNoiseLabel rest

/-- `.replace(/\s+IST/i, '')` — remove the leftmost run of whitespace that
is immediately followed by `IST` (case-insensitive), together with that
`IST`. -/
def stripFirstIST : List Char → List Char
  | [] => []
  | c :: rest =>
    if c.isWhitespace ∧ lowerPrefixMatches "ist".toList ((c :: rest).dropWhile Char.isWhitespace) then
      ((c :: rest).dropWhile Char.isWhitespace).drop 3
    else
      c :: stripFirstIST rest

/-- The cleaned date string of the fallback branch: strip the noise label,
strip the `IST` suffix, trim. -/
def cleanedDateString (s : String) : String :=
  String.mk (trimChars (stripFirstIST (stripFirstNoiseLabel s.toList)))

/-- `parseMoneycontrolDate` from `dateParser.js`: direct parse, then parse
of the cleaned string, then the current time.  Total by construction. -/
def parseMoneycontrolDate (dparse : String → Option Int) (now : Int) (dateString : String) : Int :=
  if dateString = "" then now
  else
    match dparse dateString with
    | some t => t
    | none =>
      match dparse (cleanedDateString dateString) with
      | some t => t
      | none => now

example : cleanedDateString "Updated: January 19 IST" = "January 19" := by rfl
example : cleanedDateString "Published : 10:30 AM IST extra" = "10:30 AM extra" := by rfl
example : cleanedDateString "nothing to strip" = "nothing to strip" := by rfl

/-!
### Scraped posts (`src/services/scraper.js`)
-/

/-- A scraped post, in the shape `scrapeMoneycontrolFeed` builds
(`postData`) before the pipeline adds embeddings. -/
structure Post where
  source : String
  source_id : String
  title : String
  content : String
  url : String
  author : Option String
  published_at : Int
  metadata : Option (List (String × JVal))

/-- Model of the JavaScript `String.prototype.includes`. -/
def strContains (s pat : String) : Bool :=
  containsPat pat.toList s.toList

/-- The category inference of `scrapeMoneycontrolFeed`: substring matching
on the listing URL, first match wins, defaulting to `general`. -/
def categoryFor (targetUrl : String) : String :=
  if strContains targetUrl "personal-finance" then "personal-finance"
  else if strContains targetUrl "banking" then "banking"
  else if strContains targetUrl "/india/" then "india"
  else if strContains targetUrl "city" then "city"
  else if strContains targetUrl "world" then "world"
  else if strContains targetUrl "politics" then "politics"
  else if strContains targetUrl "defence" then "defence"
  else if strContains targetUrl "economy" then "economy"
  else "general"

/-- `link.split('/').filter(Boolean).pop()` — the last non-empty segment
of the URL; the JavaScript `undefined` of an empty `pop()` becomes the
string `"undefined"` in the template literal. -/
def lastUrlSegment (link : String) : String :=
  ((((splitOnChars "/".toList link.toList).map String.mk).filter
      (fun seg => seg ≠ "")).getLast?).getD "undefined"

/-- What `getArticleBody` extracted for one article. -/
structure ArticleBody where
  full_body : String
  author : Option String
  publishedText : Option String

/-- The `postData` object built at the end of the `scrapeMoneycontrolFeed`
loop for one article. -/
def buildPostData (dparse : String → Option Int) (now : Int) (targetUrl : String)
    (title link : String) (body : ArticleBody) : Post :=
  { source := "moneycontrol",
    source_id := "moneycontrol_" ++ lastUrlSegment link,
    title := title,
    content := if body.full_body = "" then title else body.full_body,
    url := link,
    author := body.author,
    published_at := parseMoneycontrolDate dparse now (body.publishedText.getD ""),
    metadata := some
      [("category", JVal.jstr (categoryFor targetUrl)),
       ("raw_published_text",
         match body.publishedText with
         | some t => JVal.jstr t
         | none => JVal.jnull),
       ("scraped_from", JVal.jstr targetUrl),
       ("scraped_at", JVal.jstr (toString now))] }

example :
    lastUrlSegment "https://www.moneycontrol.com/news/politics/some-article-13280.html" =
      "some-article-13280.html" := by rfl

/-!
### Embedding and transform stages
(`src/services/embedding.js`, `src/services/contentTransformer.js`)
-/

/-- `generateEmbedding` from `embedding.js`.  `provider` is the
`ollama.embed` call, returning its `embeddings` array (or `none` on a
thrown error); vector entries are abstracted as integers since no claim
computes with them. -/
def generateEmbedding (provider : String → Option (List (List Int))) (text : String) :
    Except String (List Int) :=
  if text = "" ∨ strLen (strTrim text) = 0 then Except.error "Text cannot be empty"
  else
    let truncatedText := if strLen text > 8000 then strTake text 8000 else text
    match provider truncatedText with
    | none => Except.error "No embedding data returned from Ollama"
    | some [] => Except.error "No embedding data returned from Ollama"
    | some (e :: _) => Except.ok e

/-- The Q&A conversion prompt template (`contentToQAPrompt.js`).  The
instruction text is abbreviated: no claim depends on its wording, only on
the placeholder substitution. -/
def CONTENT_TO_QA_PROMPT : String :=
  "Convert it into a clear, public-facing Q&A explainer.\n\n" ++
  "Source article title: {title}\n\nSource URL: {url}\n\n" ++
  "Raw article content to convert:\n\n{content}\n\nOutput only the finished Q&A explainer."

/-- `formatContentToQAPrompt` from `contentToQAPrompt.js`: defaults, the
empty-content throw, and placeholder substitution. -/
def formatContentToQAPrompt (title url content : String) : Except String String :=
  let t := if title = "" then "Untitled" else title
  if strTrim content = "" then
    Except.error "Article content is empty; cannot convert to Q&A."
  else
    Except.ok
      (strReplaceAll
        (strReplaceAll (strReplaceAll CONTENT_TO_QA_PROMPT "{title}" t) "{url}" url)
        "{content}" (strTrim content))

/-- `transformContentToQA` from `contentTransformer.js`.  `llm` is the
`ollama.chat` call on the built prompt (`none` models a thrown error or a
missing response message). -/
def transformContentToQA (llm : String → Option String) (title content url : String) :
    Except String String :=
  if content = "" then Except.error "Post content is missing or invalid."
  else
    match formatContentToQAPrompt title url content with
    | Except.error e => Except.error e
    | Except.ok prompt =>
      match llm prompt with
      | none => Except.error "Ollama chat failed"
      | some resp =>
        if strTrim resp = "" then
          Except.error "LLM returned empty content for Q&A transformation."
        else Except.ok (strTrim resp)

/-!
### Orchestrator, step 3 (`src/services/cron.js`, `runScrapingAndClassificationJob`)
-/

/-- The external providers the per-item pipeline step calls. -/
structure Oracles where
  embedProvider : String → Option (List (List Int))
  transformLLM : String → Option String

/-- `generatePostEmbedding` from `embedding.js`: embed the concatenation
of title and raw content. -/
def generatePostEmbedding (o : Oracles) (p : Post) : Except String (List Int) :=
  generateEmbedding o.embedProvider (p.title ++ "\n\n" ++ p.content)

/-- The record handed to `insertPost`: the post plus embedding columns and
the classification label. -/
structure PendingPost where
  source : String
  source_id : String
  title : String
  content : String
  url : String
  author : Option String
  published_at : Int
  metadata : Option (List (String × JVal))
  embedding : Option (List Int)
  embedding_v2 : Option (List Int)
  is_interesting : Option Bool

/-- Steps 3a-3c of `runScrapingAndClassificationJob` for one new post:
embed the RAW content; then transform (its failure caught locally, keeping
the raw content); insert the transformed content with the embedding.  A
thrown embedding error reaches the outer catch, which inserts the raw post
with null embeddings. -/
def processNewPost (o : Oracles) (p : Post) : PendingPost :=
  match generatePostEmbedding o p with
  | Except.error _ =>
    { source := p.source, source_id := p.source_id, title := p.title, content := p.content,
      url := p.url, author := p.author, published_at := p.published_at, metadata := p.metadata,
      embedding := none, embedding_v2 := none, is_interesting := none }
  | Except.ok emb =>
    let contentToStore :=
      match transformContentToQA o.transformLLM p.title p.content p.url with
      | Except.ok t => t
      | Except.error _ => p.content
    { source := p.source, source_id := p.source_id, title := p.title, content := contentToStore,
      url := p.url, author := p.author, published_at := p.published_at, metadata := p.metadata,
      embedding := none, embedding_v2 := some emb, is_interesting := none }

/-- A row of the `posts` table (`insertPost ... RETURNING *`). -/
structure StoredPost where
  id : Nat
  source : String
  source_id : String
  title : String
  content : String
  url : String
  author : Option String
  published_at : Int
  metadata : Option (List (String × JVal))
  embedding : Option (List Int)
  embedding_v2 : Option (List Int)
  is_interesting : Option Bool

/-- `insertPost` from `models/post.js`: append one row, with the generated
id.  (The pgvector text formatting of the embedding is presentation only
and is not modelled.) -/
def insertPost (store : List StoredPost) (d : PendingPost) : StoredPost × List StoredPost :=
  let row : StoredPost :=
    { id := store.length + 1, source := d.source, source_id := d.source_id, title := d.title,
      content := d.content, url := d.url, author := d.author, published_at := d.published_at,
      metadata := d.metadata, embedding := d.embedding, embedding_v2 := d.embedding_v2,
      is_interesting := d.is_interesting }
  (row, store ++ [row])

/-- One iteration of the step-3 loop: process the post and insert it. -/
def processAndStore (o : Oracles) (store : List StoredPost) (p : Post) :
    StoredPost × List StoredPost :=
  insertPost store (processNewPost o p)

/-!
### Classification update (`models/post.js`, `updatePostClassification`)
-/

/-- PostgreSQL `jsonb || jsonb` on objects: union of the key sets, the
right operand winning on common keys. -/
def jsonbConcat (a b : List (String × JVal)) : List (String × JVal) :=
  a.filter (fun kv => (lookupKey b kv.1).isNone) ++ b

/-- The `SET` clause of `updatePostClassification`:
`is_interesting = $1, metadata = COALESCE(metadata, empty) || patch`. -/
def applyClassificationUpdate (label : Option Bool) (patch : List (String × JVal))
    (p : StoredPost) : StoredPost :=
  { p with is_interesting := label,
           metadata := some (jsonbConcat (p.metadata.getD []) patch) }

/-- `updatePostClassification` from `models/post.js`: the returned row of
`UPDATE ... WHERE id = $3 RETURNING *`, or `none` (NotFound) when no row
matches. -/
def updatePostClassification (store : List StoredPost) (postId : Nat) (label : Option Bool)
    (patch : List (String × JVal)) : Option StoredPost :=
  (store.find? (fun p => p.id = postId)).map (applyClassificationUpdate label patch)

/-!
## Claim theorems
-/

/-- C1: for every new item, the stored `embedding_v2` (when non-null) is
the embedding of the raw, pre-transform `title + "\n\n" + content`, and
when both stages succeed the persisted content is the transform output
while the embedding still comes from the raw text: the embedding stage is
applied to the raw record before the transform result replaces the
content. -/
theorem embedding_computed_from_raw_content (o : Oracles) (p : Post) :
    (∀ v, (processNewPost o p).embedding_v2 = some v →
      generateEmbedding o.embedProvider (p.title ++ "\n\n" ++ p.content) = Except.ok v)
    ∧ (∀ v t, generatePostEmbedding o p = Except.ok v →
        transformContentToQA o.transformLLM p.title p.content p.url = Except.ok t →
        (processNewPost o p).content = t ∧ (processNewPost o p).embedding_v2 = some v) := by
  constructor
  · intro v hv
    unfold processNewPost at hv
    cases hemb : generatePostEmbedding o p with
    | error e => rw [hemb] at hv; simp at hv
    | ok emb =>
      rw [hemb] at hv
      simp at hv
      rw [← hv]
      exact hemb
  · intro v t hemb htr
    unfold processNewPost
    rw [hemb, htr]
    exact ⟨rfl, rfl⟩

/-- Witness for C1 at a concrete post and concrete providers. -/
theorem embedding_computed_from_raw_content_witness :
    (processNewPost ⟨fun _ => some [[7]], fun _ => some "QA text"⟩
        ⟨"moneycontrol", "moneycontrol_x", "t", "c", "u", none, 0, none⟩).content = "QA text"
    ∧ (processNewPost ⟨fun _ => some [[7]], fun _ => some "QA text"⟩
        ⟨"moneycontrol", "moneycontrol_x", "t", "c", "u", none, 0, none⟩).embedding_v2 =
        some [7] :=
  (embedding_computed_from_raw_content
    ⟨fun _ => some [[7]], fun _ => some "QA text"⟩
    ⟨"moneycontrol", "moneycontrol_x", "t", "c", "u", none, 0, none⟩).2 [7] "QA text" rfl rfl

/-- C2 as stated is false: on embedding failure the outer catch inserts
the RAW post, so the stored content differs from the embedding-success
case, where the transform output is stored.  Concretely: same post, same
transform provider; failing embedding stores `"c"`, succeeding embedding
stores `"QA text"`. -/
theorem embedding_failure_changes_stored_content_cex :
    (processNewPost ⟨fun _ => none, fun _ => some "QA text"⟩
        ⟨"moneycontrol", "moneycontrol_x", "t", "c", "u", none, 0, none⟩).embedding_v2 = none
    ∧ (processNewPost ⟨fun _ => none, fun _ => some "QA text"⟩
        ⟨"moneycontrol", "moneycontrol_x", "t", "c", "u", none, 0, none⟩).content = "c"
    ∧ (processNewPost ⟨fun _ => some [[1]], fun _ => some "QA text"⟩
        ⟨"moneycontrol", "moneycontrol_x", "t", "c", "u", none, 0, none⟩).content = "QA text"
    ∧ (processNewPost ⟨fun _ => none, fun _ => some "QA text"⟩
          ⟨"moneycontrol", "moneycontrol_x", "t", "c", "u", none, 0, none⟩).content ≠
        (processNewPost ⟨fun _ => some [[1]], fun _ => some "QA text"⟩
          ⟨"moneycontrol", "moneycontrol_x", "t", "c", "u", none, 0, none⟩).content := by
  refine ⟨rfl, rfl, rfl, ?_⟩
  decide

/-- C2 amended: if the embedding provider fails, exactly one record is
stored for the item, with `embedding_v2 = null`, `is_interesting = null`,
and the RAW content (the transform stage is skipped on this path). -/
theorem embedding_failure_stores_one_raw_record (o : Oracles) (p : Post)
    (store : List StoredPost) (e : String)
    (h : generatePostEmbedding o p = Except.error e) :
    (processNewPost o p).content = p.content
    ∧ (processNewPost o p).embedding_v2 = none
    ∧ (processNewPost o p).embedding = none
    ∧ (processNewPost o p).is_interesting = none
    ∧ (processAndStore o store p).2.length = store.length + 1 := by
  unfold processAndStore insertPost processNewPost
  rw [h]
  simp

/-- Witness for the amended C2 at a concrete failing provider. -/
theorem embedding_failure_stores_one_raw_record_witness :
    (processNewPost ⟨fun _ => none, fun _ => some "QA text"⟩
        ⟨"moneycontrol", "moneycontrol_y", "t2", "c2", "u2", none, 0, none⟩).content = "c2"
    ∧ (processNewPost ⟨fun _ => none, fun _ => some "QA text"⟩
        ⟨"moneycontrol", "moneycontrol_y", "t2", "c2", "u2", none, 0, none⟩).embedding_v2 = none
    ∧ (processNewPost ⟨fun _ => none, fun _ => some "QA text"⟩
        ⟨"moneycontrol", "moneycontrol_y", "t2", "c2", "u2", none, 0, none⟩).embedding = none
    ∧ (processNewPost ⟨fun _ => none, fun _ => some "QA text"⟩
        ⟨"moneycontrol", "moneycontrol_y", "t2", "c2", "u2", none, 0, none⟩).is_interesting = none
    ∧ (processAndStore ⟨fun _ => none, fun _ => some "QA text"⟩ []
        ⟨"moneycontrol", "moneycontrol_y", "t2", "c2", "u2", none, 0, none⟩).2.length =
        List.length ([] : List StoredPost) + 1 :=
  embedding_failure_stores_one_raw_record ⟨fun _ => none, fun _ => some "QA text"⟩
    ⟨"moneycontrol", "moneycontrol_y", "t2", "c2", "u2", none, 0, none⟩ []
    "No embedding data returned from Ollama" rfl

/-- C6: when the transform stage fails (including on empty LLM output),
the stored record keeps the original raw content, still carries the
embedding, and the item is not aborted. -/
theorem transform_failure_retains_raw_content (o : Oracles) (p : Post) :
    (∀ emb e, generatePostEmbedding o p = Except.ok emb →
      transformContentToQA o.transformLLM p.title p.content p.url = Except.error e →
      (processNewPost o p).content = p.content
      ∧ (processNewPost o p).embedding_v2 = some emb
      ∧ (processNewPost o p).is_interesting = none)
    ∧ (∀ prompt resp, formatContentToQAPrompt p.title p.url p.content = Except.ok prompt →
        o.transformLLM prompt = some resp → strTrim resp = "" →
        ∃ m, transformContentToQA o.transformLLM p.title p.content p.url = Except.error m) := by
  constructor
  · intro emb e hemb htr
    unfold processNewPost
    rw [hemb, htr]
    exact ⟨rfl, rfl, rfl⟩
  · intro prompt resp hfmt hllm htrim
    by_cases hc : p.content = ""
    · exact ⟨"Post content is missing or invalid.", by simp [transformContentToQA, hc]⟩
    · refine ⟨"LLM returned empty content for Q&A transformation.", ?_⟩
      simp [transformContentToQA, hc, hfmt, hllm, htrim]

/-- Witness for C6: a provider that throws during the transform. -/
theorem transform_failure_retains_raw_content_witness :
    (processNewPost ⟨fun _ => some [[3]], fun _ => none⟩
        ⟨"moneycontrol", "moneycontrol_z", "t3", "c3", "u3", none, 0, none⟩).content = "c3"
    ∧ (processNewPost ⟨fun _ => some [[3]], fun _ => none⟩
        ⟨"moneycontrol", "moneycontrol_z", "t3", "c3", "u3", none, 0, none⟩).embedding_v2 =
        some [3]
    ∧ (processNewPost ⟨fun _ => some [[3]], fun _ => none⟩
        ⟨"moneycontrol", "moneycontrol_z", "t3", "c3", "u3", none, 0, none⟩).is_interesting =
        none :=
  (transform_failure_retains_raw_content ⟨fun _ => some [[3]], fun _ => none⟩
    ⟨"moneycontrol", "moneycontrol_z", "t3", "c3", "u3", none, 0, none⟩).1 [3]
    "Ollama chat failed" rfl rfl

/-- C9: the `source_id` built by the scraper is a pure function of the
article URL — invariant under the parse oracle, the clock, the listing
URL, the title and the article body — and equals the source name plus the
last non-empty URL segment. -/
theorem sourceId_pure_function_of_url (d₁ d₂ : String → Option Int) (now₁ now₂ : Int)
    (t₁ t₂ title₁ title₂ link : String) (b₁ b₂ : ArticleBody) :
    (buildPostData d₁ now₁ t₁ title₁ link b₁).source_id =
      (buildPostData d₂ now₂ t₂ title₂ link b₂).source_id
    ∧ (buildPostData d₁ now₁ t₁ title₁ link b₁).source = "moneycontrol"
    ∧ (buildPostData d₁ now₁ t₁ title₁ link b₁).source_id =
        "moneycontrol_" ++ lastUrlSegment link :=
  ⟨rfl, rfl, rfl⟩

/-- C7: date normalization is total — direct parse first; on failure the
cleaned string (noise labels and IST stripped, trimmed) is parsed; on
repeated failure the current time is returned.  The return type is a
timestamp, not an option: no date-parse error can propagate and the
resulting `published_at` is never null. -/
theorem date_parse_totality_and_fallback (dparse : String → Option Int) (now : Int)
    (s : String) :
    (s = "" → parseMoneycontrolDate dparse now s = now)
    ∧ (∀ t, s ≠ "" → dparse s = some t → parseMoneycontrolDate dparse now s = t)
    ∧ (∀ t, s ≠ "" → dparse s = none → dparse (cleanedDateString s) = some t →
        parseMoneycontrolDate dparse now s = t)
    ∧ (s ≠ "" → dparse s = none → dparse (cleanedDateString s) = none →
        parseMoneycontrolDate dparse now s = now) := by
  refine ⟨?_, ?_, ?_, ?_⟩ <;> intros <;> simp [parseMoneycontrolDate, *]

/-- Witness for C7: a date oracle that rejects the raw string
`"Updated: 5 IST"` but accepts the cleaned string `"5"`. -/
theorem date_parse_totality_and_fallback_witness :
    parseMoneycontrolDate (fun str => if str = "5" then some (42 : Int) else none) 99
      "Updated: 5 IST" = 42 :=
  (date_parse_totality_and_fallback (fun str => if str = "5" then some (42 : Int) else none)
      99 "Updated: 5 IST").2.2.1 42 (by decide) (by decide) (by decide)

/-- The condition under which the classification stage fails: the provider
throws, the response content is missing/empty, or the response cannot be
parsed as JSON. -/
def classificationStageFails (chat : String → Except String String) (a : Article) : Prop :=
  match chat (formatClassificationPrompt a) with
  | Except.error _ => True
  | Except.ok content =>
    content = "" ∨ ∃ m, parseClassifierContent content = Except.error m

/-- C3: whenever the classification stage fails (provider error, empty
response, or unparseable JSON), `classifyArticle` returns the unknown
label (null) with a reasoning string describing the failure — never the
label false. -/
theorem classification_failure_yields_unknown_label (chat : String → Except String String)
    (a : Article) (h : classificationStageFails chat a) :
    (classifyArticle chat a).is_interesting = none
    ∧ (∃ m, (classifyArticle chat a).reasoning =
        some (JVal.jstr ("Classification failed: " ++ m)))
    ∧ (classifyArticle chat a).is_interesting ≠ some false := by
  unfold classificationStageFails at h
  unfold classifyArticle
  cases hc : chat (formatClassificationPrompt a) with
  | error e => exact ⟨rfl, ⟨e, rfl⟩, by simp [classificationFailure]⟩
  | ok content =>
    rw [hc] at h
    rcases h with h1 | ⟨m, hm⟩
    · simp only [h1, if_pos rfl]
      exact ⟨rfl, ⟨"No response content from Ollama", rfl⟩, by simp [classificationFailure]⟩
    · by_cases hemp : content = ""
      · simp only [hemp, if_pos rfl]
        exact ⟨rfl, ⟨"No response content from Ollama", rfl⟩, by simp [classificationFailure]⟩
      · simp only [if_neg hemp]
        rw [hm]
        exact ⟨rfl, ⟨m, rfl⟩, by simp [classificationFailure]⟩

/-- Witness for C3: a provider that throws. -/
theorem classification_failure_yields_unknown_label_witness :
    (classifyArticle (fun _ => Except.error "connection refused") ⟨"t", "c", "u"⟩).is_interesting
        = none
    ∧ (∃ m, (classifyArticle (fun _ => Except.error "connection refused")
        ⟨"t", "c", "u"⟩).reasoning = some (JVal.jstr ("Classification failed: " ++ m)))
    ∧ (classifyArticle (fun _ => Except.error "connection refused")
        ⟨"t", "c", "u"⟩).is_interesting ≠ some false :=
  classification_failure_yields_unknown_label (fun _ => Except.error "connection refused")
    ⟨"t", "c", "u"⟩ trivial

/-- C4: on a successfully parsed payload, both native booleans and the
literal strings are accepted for `is_interesting`: native `true` and
string `"true"` give the label true; native `false` and string `"false"`
give the label false. -/
theorem classification_boolean_coercion (chat : String → Except String String) (a : Article)
    (content : String) (fields : List (String × JVal))
    (hchat : chat (formatClassificationPrompt a) = Except.ok content)
    (hne : content ≠ "")
    (hparse : parseClassifierContent content = Except.ok (JVal.jobj fields)) :
    ((jsGet fields "is_interesting" = some (JVal.jbool true) ∨
        jsGet fields "is_interesting" = some (JVal.jstr "true")) →
      (classifyArticle chat a).is_interesting = some true)
    ∧ ((jsGet fields "is_interesting" = some (JVal.jbool false) ∨
        jsGet fields "is_interesting" = some (JVal.jstr "false")) →
      (classifyArticle chat a).is_interesting = some false) := by
  have hres : classifyArticle chat a =
      { is_interesting := some (coerceInteresting (jsGet fields "is_interesting")),
        reasoning := orNull (jsGet fields "reasoning"),
        content_pillar := orNull (jsGet fields "content_pillar"),
        policy_anchor := orNull (jsGet fields "policy_anchor") } := by
    unfold classifyArticle
    rw [hchat]
    simp only [if_neg hne]
    rw [hparse]
    rfl
  rw [hres]
  constructor
  · rintro (h | h) <;> simp [h, coerceInteresting]
  · rintro (h | h) <;> simp [h, coerceInteresting]

/-- Witness for C4: a response whose payload carries a native boolean. -/
theorem classification_boolean_coercion_witness :
    (classifyArticle (fun _ => Except.ok "\x7b\"is_interesting\":true\x7d")
        ⟨"t", "c", "u"⟩).is_interesting = some true :=
  (classification_boolean_coercion (fun _ => Except.ok "\x7b\"is_interesting\":true\x7d")
      ⟨"t", "c", "u"⟩ "\x7b\"is_interesting\":true\x7d"
      [("is_interesting", JVal.jbool true)] rfl (by decide) rfl).1 (Or.inl rfl)

/-- The coercion maps everything other than native `true` and string
`"true"` to `false`. -/
theorem coerceInteresting_eq_false_of_ne (v : Option JVal)
    (h1 : v ≠ some (JVal.jbool true)) (h2 : v ≠ some (JVal.jstr "true")) :
    coerceInteresting v = false := by
  match v with
  | none => rfl
  | some JVal.jnull => rfl
  | some (JVal.jbool b) =>
    cases b with
    | false => rfl
    | true => exact absurd rfl h1
  | some (JVal.jstr s) =>
    have hs : s ≠ "true" := fun h => h2 (by rw [h])
    simp [coerceInteresting, hs]
  | some (JVal.jnum _) => rfl
  | some (JVal.jarr _) => rfl
  | some (JVal.jobj _) => rfl

/-- C10: on the success path the label is always a boolean, never null,
and any `is_interesting` value other than native `true` or string
`"true"` — including a missing field or null — produces the label
false. -/
theorem classification_success_label_never_null (chat : String → Except String String)
    (a : Article) (content : String) (payload : JVal) (r : ClassificationResult)
    (hchat : chat (formatClassificationPrompt a) = Except.ok content)
    (hne : content ≠ "")
    (hparse : parseClassifierContent content = Except.ok payload)
    (hres : resultFromPayload payload = Except.ok r) :
    classifyArticle chat a = r
    ∧ (∃ b, r.is_interesting = some b)
    ∧ (payloadGet payload "is_interesting" ≠ some (JVal.jbool true) →
        payloadGet payload "is_interesting" ≠ some (JVal.jstr "true") →
        r.is_interesting = some false) := by
  have hclass : classifyArticle chat a = r := by
    unfold classifyArticle
    rw [hchat]
    simp only [if_neg hne]
    rw [hparse]
    dsimp only
    rw [hres]
  have hr : r.is_interesting = some (coerceInteresting (payloadGet payload "is_interesting")) := by
    cases payload with
    | jnull => simp [resultFromPayload] at hres
    | jbool b => cases hres; rfl
    | jstr s => cases hres; rfl
    | jnum n => cases hres; rfl
    | jarr l => cases hres; rfl
    | jobj fields => cases hres; rfl
  refine ⟨hclass, ⟨coerceInteresting (payloadGet payload "is_interesting"), hr⟩, ?_⟩
  intro h1 h2
  rw [hr, coerceInteresting_eq_false_of_ne _ h1 h2]

/-- Witness for C10: a payload without an `is_interesting` field. -/
theorem classification_success_label_never_null_witness :
    classifyArticle (fun _ => Except.ok "\x7b\"x\":1\x7d") ⟨"t", "c", "u"⟩ =
      { is_interesting := some false, reasoning := none,
        content_pillar := none, policy_anchor := none }
    ∧ ({ is_interesting := some false, reasoning := none, content_pillar := none,
          policy_anchor := none } : ClassificationResult).is_interesting = some false := by
  have h := classification_success_label_never_null
    (fun _ => Except.ok "\x7b\"x\":1\x7d") ⟨"t", "c", "u"⟩ "\x7b\"x\":1\x7d"
    (JVal.jobj [("x", JVal.jnum "1")])
    { is_interesting := some false, reasoning := none,
      content_pillar := none, policy_anchor := none }
    rfl (by decide) rfl rfl
  exact ⟨h.1, h.2.2 (by simp [payloadGet, jsGet, lookupKey]) (by simp [payloadGet, jsGet, lookupKey])⟩

/-- For a key absent from the right operand, `jsonb` concatenation
preserves the left operand's binding. -/
theorem lookupKey_jsonbConcat (a b : List (String × JVal)) (k : String)
    (hb : lookupKey b k = none) :
    lookupKey (jsonbConcat a b) k = lookupKey a k := by
  induction a with
  | nil => simpa [jsonbConcat, lookupKey] using hb
  | cons kv rest ih =>
    by_cases hk : kv.1 = k
    · simp [jsonbConcat, List.filter_cons, lookupKey, hk, hb]
    · by_cases hkv : (lookupKey b kv.1).isNone = true
      · simpa [jsonbConcat, List.filter_cons, hkv, lookupKey, hk] using ih
      · simpa [jsonbConcat, List.filter_cons, hkv, lookupKey, hk] using ih

/-- C8: `updatePostClassification` merges the patch into the existing
metadata non-destructively — every key present in the stored metadata but
absent from the patch keeps its old value in the updated row. -/
theorem updateClassification_merges_metadata (p : StoredPost) (label : Option Bool)
    (patch : List (String × JVal)) (m : List (String × JVal)) (k : String) (v : JVal)
    (hm : p.metadata = some m)
    (hmk : lookupKey m k = some v)
    (hpk : lookupKey patch k = none) :
    ∀ store postId, store.find? (fun q => q.id = postId) = some p →
      ∃ p', updatePostClassification store postId label patch = some p'
        ∧ ∃ m', p'.metadata = some m' ∧ lookupKey m' k = some v := by
  intro store postId hfind
  refine ⟨applyClassificationUpdate label patch p, ?_, ?_⟩
  · unfold updatePostClassification
    rw [hfind]
    rfl
  · refine ⟨jsonbConcat m patch, ?_, ?_⟩
    · unfold applyClassificationUpdate
      rw [hm]
      rfl
    · rw [lookupKey_jsonbConcat m patch k hpk]
      exact hmk

/-- Witness for C8: a stored row with `category` metadata receiving a
`reasoning` patch keeps the `category` binding. -/
theorem updateClassification_merges_metadata_witness :
    ∃ p', updatePostClassification
        [{ id := 1, source := "moneycontrol", source_id := "moneycontrol_w", title := "t",
           content := "c", url := "u", author := none, published_at := 0,
           metadata := some [("category", JVal.jstr "economy")], embedding := none,
           embedding_v2 := none, is_interesting := none }] 1 (some true)
        [("reasoning", JVal.jstr "relevant")] = some p'
      ∧ ∃ m', p'.metadata = some m'
        ∧ lookupKey m' "category" = some (JVal.jstr "economy") :=
  updateClassification_merges_metadata
    { id := 1, source := "moneycontrol", source_id := "moneycontrol_w", title := "t",
      content := "c", url := "u", author := none, published_at := 0,
      metadata := some [("category", JVal.jstr "economy")], embedding := none,
      embedding_v2 := none, is_interesting := none }
    (some true) [("reasoning", JVal.jstr "relevant")]
    [("category", JVal.jstr "economy")] "category" (JVal.jstr "economy")
    rfl rfl rfl _ 1 rfl

/-- The head of a `dropWhile` result falsifies the predicate. -/
theorem dropWhile_head_eq_false {α : Type} (p : α → Bool) :
    ∀ (l : List α) (c : α) (cs : List α), l.dropWhile p = c :: cs → p c = false := by
  intro l
  induction l with
  | nil => intro c cs h; simp [List.dropWhile] at h
  | cons a t ih =>
    intro c cs h
    rw [List.dropWhile_cons] at h
    by_cases hp : p a
    · rw [if_pos hp] at h; exact ih c cs h
    · rw [if_neg hp] at h
      cases h
      simpa using hp

/-- Characterization of the greedy regex match: the input decomposes as
`pre ++ mid ++ post` with no opening brace before `mid`, no closing brace
after it, and `mid` delimited by braces. -/
theorem braceSpan_spec (cs pre mid post : List Char)
    (h : braceSpan cs = some (pre, mid, post)) :
    cs = pre ++ mid ++ post
    ∧ (∀ c ∈ pre, c ≠ '\x7b')
    ∧ (∀ c ∈ post, c ≠ '\x7d')
    ∧ mid.head? = some '\x7b'
    ∧ mid.getLast? = some '\x7d' := by
  unfold braceSpan at h
  split at h
  · exact Option.noConfusion h
  · rename_i r0 rtail hr
    split at h
    · exact Option.noConfusion h
    · rename_i m0 mtail hmr
      simp only [Option.some.injEq, Prod.mk.injEq] at h
      obtain ⟨hpre, hmid, hpost⟩ := h
      have hsplit :=
        List.takeWhile_append_dropWhile (fun c => c != '\x7d') (r0 :: rtail).reverse
      have hrest : (r0 :: rtail) = mid ++ post := by
        calc (r0 :: rtail)
            = ((r0 :: rtail).reverse.takeWhile (fun c => c != '\x7d')
                ++ (r0 :: rtail).reverse.dropWhile (fun c => c != '\x7d')).reverse := by
              rw [hsplit, List.reverse_reverse]
          _ = mid ++ post := by rw [List.reverse_append, hmr, hmid, hpost]
      refine ⟨?_, ?_, ?_, ?_, ?_⟩
      · calc cs = cs.takeWhile (fun c => c != '\x7b')
                  ++ cs.dropWhile (fun c => c != '\x7b') :=
              (List.takeWhile_append_dropWhile _ _).symm
          _ = pre ++ mid ++ post := by rw [hr, hrest, hpre, List.append_assoc]
      · intro c hc
        rw [← hpre] at hc
        simpa using List.mem_takeWhile_imp hc
      · intro c hc
        rw [← hpost, List.mem_reverse] at hc
        simpa using List.mem_takeWhile_imp hc
      · have hmidne : mid ≠ [] := by
          rw [← hmid]
          simp
        have hr0 : r0 = '\x7b' := by
          have := dropWhile_head_eq_false (fun c => c != '\x7b') cs r0 rtail hr
          simpa using this
        cases hmc : mid with
        | nil => exact absurd hmc hmidne
        | cons x xs =>
          have hx : (r0 :: rtail).head? = some x := by
            rw [hrest, hmc]
            rfl
          simp only [List.head?_cons, Option.some.injEq] at hx
          rw [List.head?_cons, ← hx, hr0]
      · have hm0 : m0 = '\x7d' := by
          have := dropWhile_head_eq_false (fun c => c != '\x7d') (r0 :: rtail).reverse m0 mtail hmr
          simpa using this
        rw [← hmid, List.getLast?_reverse, List.head?_cons, hm0]

/-- C5 amended: the parsing sequence is — direct JSON parse; on failure,
parse the substring running from the FIRST opening brace to the LAST
closing brace (the greedy regex match), not the first brace-delimited
JSON object; if there is no such substring, or parsing it fails, the
stage fails. -/
theorem classifier_parse_fallback_greedy (content : String) :
    (∀ v, jsonParse content = some v → parseClassifierContent content = Except.ok v)
    ∧ (jsonParse content = none → firstToLastBraceMatch content = none →
        parseClassifierContent content =
          Except.error "Could not parse Ollama response as JSON")
    ∧ (∀ sub, jsonParse content = none → firstToLastBraceMatch content = some sub →
        parseClassifierContent content =
          (match jsonParse sub with
            | some v => Except.ok v
            | none => Except.error "Unexpected token in JSON"))
    ∧ (∀ sub, firstToLastBraceMatch content = some sub →
        ∃ pre post : List Char,
          content.toList = pre ++ sub.toList ++ post
          ∧ (∀ c ∈ pre, c ≠ '\x7b') ∧ (∀ c ∈ post, c ≠ '\x7d')
          ∧ sub.toList.head? = some '\x7b' ∧ sub.toList.getLast? = some '\x7d') := by
  refine ⟨?_, ?_, ?_, ?_⟩
  · intro v hv
    unfold parseClassifierContent
    rw [hv]
  · intro h1 h2
    unfold parseClassifierContent
    rw [h1, h2]
  · intro sub h1 h2
    unfold parseClassifierContent
    rw [h1, h2]
  · intro sub h
    unfold firstToLastBraceMatch at h
    cases hbs : braceSpan content.toList with
    | none => rw [hbs] at h; exact Option.noConfusion h
    | some t =>
      obtain ⟨pre, mid, post⟩ := t
      rw [hbs] at h
      injection h with h
      obtain ⟨hcs, hpre, hpost, hhead, hlast⟩ := braceSpan_spec content.toList pre mid post hbs
      subst h
      exact ⟨pre, post, hcs, hpre, hpost, hhead, hlast⟩

/-- Witness for the amended C5, at a concrete non-JSON response. -/
theorem classifier_parse_fallback_greedy_witness :
    ∃ pre post : List Char,
      "a\x7bb\x7dc".toList = pre ++ "\x7bb\x7d".toList ++ post
      ∧ (∀ c ∈ pre, c ≠ '\x7b') ∧ (∀ c ∈ post, c ≠ '\x7d')
      ∧ "\x7bb\x7d".toList.head? = some '\x7b'
      ∧ "\x7bb\x7d".toList.getLast? = some '\x7d' :=
  (classifier_parse_fallback_greedy "a\x7bb\x7dc").2.2.2 "\x7bb\x7d" rfl

/-- C5 as stated is false: on a response holding two JSON objects, the
first brace-delimited JSON object substring exists and parses, so under
the claim the stage would succeed; the code instead feeds the greedy
first-to-last brace span to `JSON.parse`, which fails, and the stage
fails. -/
theorem classifier_parse_first_object_cex :
    jsonParse "x\x7b\"is_interesting\":true\x7d y \x7b\"b\":2\x7d" = none
    ∧ firstBraceDelimitedJsonObject "x\x7b\"is_interesting\":true\x7d y \x7b\"b\":2\x7d" =
        some "\x7b\"is_interesting\":true\x7d"
    ∧ (jsonParse "\x7b\"is_interesting\":true\x7d").isSome = true
    ∧ firstToLastBraceMatch "x\x7b\"is_interesting\":true\x7d y \x7b\"b\":2\x7d" =
        some "\x7b\"is_interesting\":true\x7d y \x7b\"b\":2\x7d"
    ∧ jsonParse "\x7b\"is_interesting\":true\x7d y \x7b\"b\":2\x7d" = none
    ∧ parseClassifierContent "x\x7b\"is_interesting\":true\x7d y \x7b\"b\":2\x7d" =
        Except.error "Unexpected token in JSON"
    ∧ (classifyArticle (fun _ => Except.ok "x\x7b\"is_interesting\":true\x7d y \x7b\"b\":2\x7d")
        ⟨"t", "c", "u"⟩).is_interesting = none :=
  ⟨rfl, rfl, rfl, rfl, rfl, rfl, rfl⟩
